import Mathlib

/-!
# A verification development for the poker engine `poker_backend.py`

This file gives a shallow embedding of the pure game logic of the engine
(the hand evaluator, the betting-round state machine, blind posting, pot
collection, showdown payout and the state-snapshot serialisation) and proves
properties of that embedding.

Modelling conventions:
* A `Card` carries a suit index (0 = ♠, 1 = ♥, 2 = ♦, 3 = ♣, the order of
  `SUITS`) and the numeric `value` of its rank (2..14, as in `RANK_VALUES`).
  Since ranks and values are in bijection, the string `rank` field of the
  Python class is represented by `value` throughout; Python comparisons on
  rank strings become comparisons on values.
* Python integers are `Int`; Python `//` is `Int.fdiv` (floor division) and
  Python list indexing `players[i]` is `List.getD i dummyPlayer` (claims are
  stated with in-range indices, where the two agree).
* Python's stable `sorted(key=...)` is `List.insertionSort` with the
  corresponding key relation; tuple keys `(bool, value)` are encoded as the
  number `bool * 15 + value`, whose numeric order coincides with the
  lexicographic tuple order because values are below 15.
* The engine's I/O (socket emits, logging, sleeps) has no effect on game
  state and is dropped.  The human/bot decision sources consulted by
  `betting_round` are abstracted as an `oracle` parameter, and its
  unbounded `while` loop is given explicit fuel.
-/

structure Card where
  suit : Nat
  value : Nat
deriving DecidableEq, Repr

/-- Sort key relation for `hand.sort(key=lambda card: card.value, reverse=True)`. -/
def descRel (a b : Card) : Prop := b.value ≤ a.value

instance : DecidableRel descRel := fun a b => Nat.decLe _ _

def sortDesc (l : List Card) : List Card := l.insertionSort descRel

/-- Key of `sorted(hand, key=lambda c: (c.value != 14, c.value))` (the wheel
re-ordering), encoded numerically. -/
def wheelKey (c : Card) : Nat := (if c.value == 14 then 0 else 1) * 15 + c.value

def wheelRel (a b : Card) : Prop := wheelKey a ≤ wheelKey b

instance : DecidableRel wheelRel := fun a b => Nat.decLe _ _

/-- Key of `(c.rank != r, c.value)` and `(c.rank not in rs, c.value)`: the
group of ranks `grp` maps to 0, everything else to 1. -/
def groupKey (grp : List Nat) (c : Card) : Nat :=
  (if grp.contains c.value then 0 else 1) * 15 + c.value

/-- `sorted(..., key=..., reverse=True)`: descending numeric key order. -/
def groupRel (grp : List Nat) (a b : Card) : Prop := groupKey grp b ≤ groupKey grp a

instance (grp : List Nat) : DecidableRel (groupRel grp) := fun a b => Nat.decLe _ _

/-- Accumulator pass of `distinctFirst`: keep each element not seen before. -/
def distinctFirstGo : List Nat → List Nat → List Nat
  | [], _ => []
  | v :: rest, seen =>
    if seen.contains v then distinctFirstGo rest seen
    else v :: distinctFirstGo rest (v :: seen)

/-- The distinct elements of a list in first-occurrence order (the key order
of a Python `Counter` / `set` built from the list). -/
def distinctFirst (l : List Nat) : List Nat := distinctFirstGo l []

def wheelValues : List Nat := [14, 2, 3, 4, 5]

/-- `set(ranks) == {'A', '2', '3', '4', '5'}`, as mutual containment of the
value sets. -/
def isWheelSet (vals : List Nat) : Bool :=
  vals.all (fun v => wheelValues.contains v) && wheelValues.all (fun v => vals.contains v)

/-- `all(values[i] - 1 == values[i+1] for i in range(4))` on the five
descending values. -/
def isConsecDesc (vals : List Nat) : Bool :=
  match vals with
  | [a, b, c, d, e] => a == b + 1 && b == c + 1 && c == d + 1 && d == e + 1
  | _ => false

/-- `Counter(ranks)` as `(value, count)` pairs in first-occurrence order. -/
def countsOf (vals : List Nat) : List (Nat × Nat) :=
  (distinctFirst vals).map (fun r => (r, vals.count r))

/-- `sorted(counts.values(), reverse=True)`. -/
def countsValsDesc (vals : List Nat) : List Nat :=
  ((countsOf vals).map Prod.snd).insertionSort (fun a b => b ≤ a)

/-- `_calculate_hand_rank(hand)`: category (1..10) and the tie-break-ordered
five cards.  (The returned `HAND_NAMES` string is omitted: it is a pure
function of the category.) -/
def calculate_hand_rank (hand0 : List Card) : Int × List Card :=
  let hand := sortDesc hand0
  let values := hand.map Card.value
  let is_flush := (distinctFirst (hand.map Card.suit)).length == 1
  let is_straight := isConsecDesc values || isWheelSet values
  let hand := if is_straight && isWheelSet values then hand.insertionSort wheelRel else hand
  if is_straight && is_flush then
    (if values.headD 0 == 14 then (10 : Int) else 9, hand)
  else
    let counts := countsOf values
    let counts_vals := countsValsDesc values
    if counts_vals.headD 0 == 4 then
      let four_rank := ((counts.filter (fun rc => rc.2 == 4)).map Prod.fst).headD 0
      ((8 : Int), hand.insertionSort (groupRel [four_rank]))
    else if counts_vals == [3, 2] then ((7 : Int), hand)
    else if is_flush then ((6 : Int), hand)
    else if is_straight then ((5 : Int), hand)
    else if counts_vals.headD 0 == 3 then
      let three_rank := ((counts.filter (fun rc => rc.2 == 3)).map Prod.fst).headD 0
      ((4 : Int), hand.insertionSort (groupRel [three_rank]))
    else if counts_vals == [2, 2, 1] then
      let pair_ranks := (counts.filter (fun rc => rc.2 == 2)).map Prod.fst
      ((3 : Int), hand.insertionSort (groupRel pair_ranks))
    else if counts_vals.headD 0 == 2 then
      let pair_rank := ((counts.filter (fun rc => rc.2 == 2)).map Prod.fst).headD 0
      ((2 : Int), hand.insertionSort (groupRel [pair_rank]))
    else ((1 : Int), hand)

/-- `_compare_hands(hand1, hand2)`: element-wise value comparison over the
zipped lists, −1/0/1. -/
def compare_hands : List Card → List Card → Int
  | c1 :: t1, c2 :: t2 =>
    if c1.value > c2.value then 1
    else if c1.value < c2.value then -1
    else compare_hands t1 t2
  | _, _ => 0

/-- Recursion core of `combinations`, structural on the card list. -/
def combosAux : List Card → Nat → List (List Card)
  | _, 0 => [[]]
  | [], _ + 1 => []
  | x :: xs, k + 1 => (combosAux xs k).map (fun c => x :: c) ++ combosAux xs (k + 1)

/-- `itertools.combinations(hand, 5)` in its lexicographic emission order. -/
def combinations (k : Nat) (l : List Card) : List (List Card) := combosAux l k

/-- `evaluate_hand(hand)`: best rank and tie-break-ordered cards over all
5-card subsets (the name string is again omitted). -/
def evaluate_hand (hand : List Card) : Int × List Card :=
  (combinations 5 hand).foldl
    (fun best combo =>
      let r := calculate_hand_rank combo
      if r.1 > best.1 then r
      else if r.1 == best.1 && compare_hands r.2 best.2 > 0 then (best.1, r.2)
      else best)
    ((-1 : Int), [])

structure Player where
  name : String
  chips : Int
  is_bot : Bool
  hand : List Card
  bet : Int
  in_hand : Bool
  is_all_in : Bool
  status : String
deriving DecidableEq, Repr

/-- Stand-in for out-of-range list indexing (all claims index in range). -/
def dummyPlayer : Player :=
  { name := "", chips := 0, is_bot := false, hand := [], bet := 0,
    in_hand := false, is_all_in := false, status := "" }

/-- `Player.reset_for_hand`. -/
def Player.reset_for_hand (p : Player) : Player :=
  { p with hand := [], bet := 0, in_hand := true, is_all_in := false, status := "" }

structure GameState where
  players : List Player
  deck : List Card
  community_cards : List Card
  pot : Int
  dealer_pos : Nat
  current_player_index : Nat
  current_bet : Int
  last_raise : Int
  stage : String
  small_blind : Int
  big_blind : Int
deriving DecidableEq, Repr

/-- The payload of a `player_action` message: `data.get('action')` and
`int(data.get('amount', 0))` (an absent amount is the default 0). -/
structure ActionData where
  action : String
  amount : Int
deriving DecidableEq, Repr

/-- The action dispatch of `Game.handle_player_action`: the per-branch result
`(player', current_bet', last_raise', is_raise)` before the all-in check. -/
def hpaStep (g : GameState) (p_idx : Nat) (data : ActionData) :
    Player × Int × Int × Bool :=
  let player := g.players.getD p_idx dummyPlayer
  let to_call := g.current_bet - player.bet
  if data.action = "fold" then
    ({ player with in_hand := false, status := "FOLD" }, g.current_bet, g.last_raise, false)
  else if data.action = "check" then
    (player, g.current_bet, g.last_raise, false)
  else if data.action = "call" then
    let call_amount := min to_call player.chips
    ({ player with chips := player.chips - call_amount, bet := player.bet + call_amount },
      g.current_bet, g.last_raise, false)
  else if data.action = "bet" ∨ data.action = "raise" then
    let total_bet := min data.amount (player.chips + player.bet)
    let additional := total_bet - player.bet
    let p1 := { player with chips := player.chips - additional, bet := player.bet + additional }
    if p1.bet > g.current_bet then (p1, p1.bet, p1.bet - g.current_bet, true)
    else (p1, g.current_bet, g.last_raise, false)
  else (player, g.current_bet, g.last_raise, false)

/-- The acted player after `if player.chips == 0: player.is_all_in, player.status = True, 'ALL-IN'`. -/
def hpaPlayer (g : GameState) (p_idx : Nat) (data : ActionData) : Player :=
  if (hpaStep g p_idx data).1.chips = 0 then
    { (hpaStep g p_idx data).1 with is_all_in := true, status := "ALL-IN" }
  else (hpaStep g p_idx data).1

/-- `Game.handle_player_action(p_idx, data)`: returns the updated state and
the `is_raise` flag of the returned dictionary. -/
def handle_player_action (g : GameState) (p_idx : Nat) (data : ActionData) :
    GameState × Bool :=
  ({ g with players := g.players.set p_idx (hpaPlayer g p_idx data),
            current_bet := (hpaStep g p_idx data).2.1,
            last_raise := (hpaStep g p_idx data).2.2.1 },
    (hpaStep g p_idx data).2.2.2)

/-- `Game.collect_bets`: `for p in self.players: self.pot += p.bet; p.bet = 0`. -/
def collect_bets (g : GameState) : GameState :=
  let acc := g.players.foldl
    (fun (acc : Int × List Player) p => (acc.1 + p.bet, acc.2 ++ [{ p with bet := 0 }]))
    (g.pot, ([] : List Player))
  { g with pot := acc.1, players := acc.2 }

/-- Eligibility test of `get_next_active_player`:
`self.players[i].in_hand and not self.players[i].is_all_in`. -/
def eligB (ps : List Player) (j : Nat) : Bool :=
  (ps.getD j dummyPlayer).in_hand && !(ps.getD j dummyPlayer).is_all_in

/-- The `for _ in range(len(self.players) + 1)` loop of
`Game.get_next_active_player`, with the remaining iteration count explicit. -/
def nextActiveAux (ps : List Player) (start : Nat) : Nat → Nat → Nat
  | 0, _ => start
  | fuel + 1, i =>
    let j := (i + 1) % ps.length
    if eligB ps j then j else nextActiveAux ps start fuel j

/-- `Game.get_next_active_player(start_index)`. -/
def get_next_active_player (ps : List Player) (start_index : Nat) : Nat :=
  nextActiveAux ps start_index (ps.length + 1) start_index

/-- Small-blind seat as computed at the top of `Game.post_blinds`. -/
def sbPos (g : GameState) : Nat := get_next_active_player g.players g.dealer_pos

/-- Big-blind seat as computed at the top of `Game.post_blinds`. -/
def bbPos (g : GameState) : Nat := get_next_active_player g.players (sbPos g)

/-- `Game.post_blinds`. -/
def post_blinds (g : GameState) : GameState :=
  let sb_pos := sbPos g
  let bb_pos := bbPos g
  let sbp := g.players.getD sb_pos dummyPlayer
  let sb_amount := min g.small_blind sbp.chips
  let players1 := g.players.set sb_pos
    { sbp with chips := sbp.chips - sb_amount, bet := sb_amount }
  let bbp := players1.getD bb_pos dummyPlayer
  let bb_amount := min g.big_blind bbp.chips
  let players2 := players1.set bb_pos
    { bbp with chips := bbp.chips - bb_amount, bet := bb_amount }
  { g with players := players2, current_bet := g.big_blind, last_raise := g.big_blind,
           current_player_index := get_next_active_player players2 bb_pos }

/-- The small-blind seat after posting: chips drop by
`min(small_blind, chips)` and the bet is set to that amount. -/
def pbSB (g : GameState) : Player :=
  { g.players.getD (sbPos g) dummyPlayer with
    chips := (g.players.getD (sbPos g) dummyPlayer).chips
      - min g.small_blind (g.players.getD (sbPos g) dummyPlayer).chips,
    bet := min g.small_blind (g.players.getD (sbPos g) dummyPlayer).chips }

/-- The big-blind seat after posting, read from the list already holding the
small blind. -/
def pbBB (g : GameState) : Player :=
  { (g.players.set (sbPos g) (pbSB g)).getD (bbPos g) dummyPlayer with
    chips := ((g.players.set (sbPos g) (pbSB g)).getD (bbPos g) dummyPlayer).chips
      - min g.big_blind ((g.players.set (sbPos g) (pbSB g)).getD (bbPos g) dummyPlayer).chips,
    bet := min g.big_blind ((g.players.set (sbPos g) (pbSB g)).getD (bbPos g) dummyPlayer).chips }

/-- `Deck.deal`: pop from the tail, `None` when exhausted. -/
def dealOne (g : GameState) : GameState × Option Card :=
  match g.deck.getLast? with
  | some c => ({ g with deck := g.deck.dropLast }, some c)
  | none => (g, none)

/-- Deal `n` cards from the deck onto the community cards (the burn card is
dealt separately by the caller, as in `betting_round`). -/
def dealCommunityN : Nat → GameState → GameState
  | 0, g => g
  | n + 1, g =>
    let r := dealOne g
    let g1 := match r.2 with
      | some c => { r.1 with community_cards := r.1.community_cards ++ [c] }
      | none => r.1
    dealCommunityN n g1

/-- `len([p for p in self.players if p.in_hand and not p.is_all_in])`. -/
def playersWithOption (ps : List Player) : Nat :=
  (ps.filter (fun p => p.in_hand && !p.is_all_in)).length

/-- `len([p for p in self.players if p.in_hand])`. -/
def countInHand (ps : List Player) : Nat :=
  (ps.filter (fun p => p.in_hand)).length

/-- The preamble of `Game.betting_round` before the closure-skip check:
stage label, per-round resets on post-flop streets, burn and community deal. -/
def bettingRoundPre (g : GameState) (stage_name : String) (cards_to_deal : Nat) :
    GameState :=
  let g1 := { g with stage := stage_name }
  let g2 :=
    if stage_name ≠ "Pre-Flop" then
      let ps := g1.players.map (fun p => { p with bet := 0 })
      { g1 with current_bet := 0, last_raise := g1.big_blind, players := ps,
                current_player_index := get_next_active_player ps g1.dealer_pos }
    else g1
  if cards_to_deal > 0 then dealCommunityN cards_to_deal (dealOne g2).1 else g2

/-- `max(p.bet for p in players_in_hand)` (Python `max` of a non-empty list). -/
def maxBets (l : List Int) : Int :=
  match l with
  | [] => 0
  | b :: bs => bs.foldl max b

/-- The `while True` loop of `Game.betting_round`.  `oracle` abstracts the
decision sources (`get_bot_action` / `wait_for_player_action`); `fuel` bounds
the number of iterations of the otherwise unbounded loop. -/
def bettingLoop (oracle : GameState → Nat → ActionData) :
    Nat → GameState → Nat → GameState
  | 0, g, _ => g
  | fuel + 1, g, action_starter =>
    if countInHand g.players ≤ 1 then g
    else
      let player := g.players.getD g.current_player_index dummyPlayer
      if player.is_all_in || !player.in_hand then
        let g1 := { g with
          current_player_index := get_next_active_player g.players g.current_player_index }
        if g1.current_player_index = action_starter then g1
        else bettingLoop oracle fuel g1 action_starter
      else
        let inHandIdx := (List.range g.players.length).filter
          (fun j => (g.players.getD j dummyPlayer).in_hand)
        let res := handle_player_action g g.current_player_index
          (oracle g g.current_player_index)
        let starter := if res.2 then g.current_player_index else action_starter
        let g2 := { res.1 with
          current_player_index := get_next_active_player res.1.players res.1.current_player_index }
        if g2.current_player_index = starter then
          let highest := maxBets (inHandIdx.map (fun j => (g2.players.getD j dummyPlayer).bet))
          if g2.players.all (fun p => p.bet == highest || !p.in_hand || p.is_all_in) then g2
          else bettingLoop oracle fuel g2 starter
        else bettingLoop oracle fuel g2 starter

/-- `Game.betting_round(stage_name, cards_to_deal)`: final state and the
Boolean `len([p for p in self.players if p.in_hand]) > 1`. -/
def betting_round (oracle : GameState → Nat → ActionData) (fuel : Nat)
    (g : GameState) (stage_name : String) (cards_to_deal : Nat) : GameState × Bool :=
  let g1 := bettingRoundPre g stage_name cards_to_deal
  if playersWithOption g1.players < 2 ∧ g1.current_bet = 0 then
    let g2 := collect_bets g1
    (g2, decide (1 < countInHand g2.players))
  else
    let g2 := collect_bets (bettingLoop oracle fuel g1 g1.current_player_index)
    (g2, decide (1 < countInHand g2.players))

/-- Indices of `[p for p in self.players if p.in_hand]` (showdown contenders). -/
def contendersIdx (g : GameState) : List Nat :=
  (List.range g.players.length).filter (fun j => (g.players.getD j dummyPlayer).in_hand)

/-- `p.hand_result = evaluate_hand(p.hand + self.community_cards)`. -/
def resultOf (g : GameState) (j : Nat) : Int × List Card :=
  evaluate_hand ((g.players.getD j dummyPlayer).hand ++ g.community_cards)

/-- One iteration of the winner-selection loop in `Game.showdown`; the
accumulator is `(winners, best_rank)`.  (When `winners` is empty and the rank
ties `best_rank`, Python would fault on `winners[0]`; this situation needs
`best_rank` to still be −1 and never arises with ≥ 5 cards per contender.) -/
def showdownStep (g : GameState) (acc : List Nat × Int) (j : Nat) : List Nat × Int :=
  let r := resultOf g j
  if r.1 > acc.2 then ([j], r.1)
  else if r.1 = acc.2 then
    match acc.1 with
    | [] => acc
    | w0 :: _ =>
      if compare_hands r.2 (resultOf g w0).2 = 1 then ([j], acc.2)
      else if compare_hands r.2 (resultOf g w0).2 = 0 then (acc.1 ++ [j], acc.2)
      else acc
  else acc

/-- The co-winner list computed by `Game.showdown`. -/
def showdownSelect (g : GameState) : List Nat :=
  ((contendersIdx g).foldl (showdownStep g) ([], -1)).1

/-- The payout loop of `Game.showdown`: `winnings = self.pot // len(winners)`,
each winner's chips grow by `winnings`, then `self.pot = 0`. -/
def showdownPay (g : GameState) (winners : List Nat) : GameState :=
  let winnings := Int.fdiv g.pot (winners.length : Int)
  { g with
    players := winners.foldl
      (fun ps j => ps.set j
        { ps.getD j dummyPlayer with chips := (ps.getD j dummyPlayer).chips + winnings })
      g.players,
    pot := 0 }

/-- `Game.award_pot_to_winner`: pays the whole pot when exactly one contender
remains, otherwise only emits state. -/
def award_pot_to_winner (g : GameState) : GameState :=
  match contendersIdx g with
  | [w] =>
    { g with
      players := g.players.set w
        { g.players.getD w dummyPlayer with chips := (g.players.getD w dummyPlayer).chips + g.pot },
      pot := 0 }
  | _ => g

/-- `Game.showdown`. -/
def showdown (g : GameState) : GameState :=
  if (contendersIdx g).length < 2 then award_pot_to_winner g
  else showdownPay g (showdownSelect g)

structure CardDict where
  suit : Nat
  rank : Nat
  color : String
deriving DecidableEq, Repr

/-- `Card.to_dict` (the `rank` string is represented by its value). -/
def Card.to_dict (c : Card) : CardDict :=
  { suit := c.suit, rank := c.value,
    color := if c.suit = 1 ∨ c.suit = 2 then "red" else "black" }

/-- One entry of the `players` array of a `game_state_update` payload; a hand
slot is `none` for the empty-dictionary placeholder `{}`. -/
structure PlayerDict where
  name : String
  chips : Int
  isBot : Bool
  hand : List (Option CardDict)
  bet : Int
  inHand : Bool
  status : String
deriving DecidableEq, Repr

def dummyPlayerDict : PlayerDict :=
  { name := "", chips := 0, isBot := false, hand := [], bet := 0,
    inHand := false, status := "" }

/-- `Player.to_dict(show_cards)`. -/
def Player.to_dict (p : Player) (show_cards : Bool) : PlayerDict :=
  { name := p.name, chips := p.chips, isBot := p.is_bot,
    hand := if show_cards || !p.is_bot then p.hand.map (fun c => some c.to_dict)
            else [none, none],
    bet := p.bet, inHand := p.in_hand, status := p.status }

/-- A full `game_state_update` payload. -/
structure StateDict where
  players : List PlayerDict
  communityCards : List CardDict
  pot : Int
  dealerPos : Nat
  currentPlayerIndex : Nat
  stage : String
deriving DecidableEq, Repr

/-- `Game.get_state(show_all_cards)`. -/
def get_state (g : GameState) (show_all_cards : Bool) : StateDict :=
  { players := g.players.map (fun p => p.to_dict (show_all_cards || !p.in_hand)),
    communityCards := g.community_cards.map Card.to_dict,
    pot := g.pot, dealerPos := g.dealer_pos,
    currentPlayerIndex := g.current_player_index, stage := g.stage }

/-- One mutation of the game state during a hand, as far as a single player's
chip accounting is concerned: an action routed through
`Game.handle_player_action`, or a `Game.collect_bets` at the end of a round. -/
inductive HandStep where
  | act : Nat → ActionData → HandStep
  | collect : HandStep

def applyStep (g : GameState) : HandStep → GameState
  | HandStep.act i d => (handle_player_action g i d).1
  | HandStep.collect => collect_bets g

def applySteps : GameState → List HandStep → GameState
  | g, [] => g
  | g, s :: rest => applySteps (applyStep g s) rest

/-! ## Concrete states used to instantiate theorems with hypotheses -/

/-- A one-seat state used to instantiate the action-clamping theorem. -/
def c3G : GameState :=
  { players := [{ name := "You", chips := 100, is_bot := false, hand := [], bet := 0,
                  in_hand := true, is_all_in := false, status := "" }],
    deck := [], community_cards := [], pot := 0, dealer_pos := 0,
    current_player_index := 0, current_bet := 0, last_raise := 20,
    stage := "Pre-Flop", small_blind := 10, big_blind := 20 }

/-- A river state whose board is a royal flush, so that both contenders tie
and split the odd pot 101. -/
def c5G : GameState :=
  { players := [{ name := "A", chips := 500, is_bot := false, hand := [⟨1, 2⟩, ⟨2, 3⟩], bet := 0,
                  in_hand := true, is_all_in := false, status := "" },
                { name := "B", chips := 400, is_bot := true, hand := [⟨1, 4⟩, ⟨2, 5⟩], bet := 0,
                  in_hand := true, is_all_in := false, status := "" }],
    deck := [], community_cards := [⟨0, 14⟩, ⟨0, 13⟩, ⟨0, 12⟩, ⟨0, 11⟩, ⟨0, 10⟩], pot := 101,
    dealer_pos := 0, current_player_index := 0, current_bet := 0, last_raise := 20,
    stage := "River", small_blind := 10, big_blind := 20 }

/-- Seats: 0 folded, 1 all-in, 2 eligible — used for the turn-order theorem. -/
def c6Ps : List Player :=
  [{ name := "f", chips := 50, is_bot := true, hand := [], bet := 0,
     in_hand := false, is_all_in := false, status := "FOLD" },
   { name := "a", chips := 0, is_bot := true, hand := [], bet := 30,
     in_hand := true, is_all_in := true, status := "ALL-IN" },
   { name := "e", chips := 80, is_bot := false, hand := [], bet := 0,
     in_hand := true, is_all_in := false, status := "" }]

/-- A state entering the flop with a lone seat still able to act. -/
def c7G : GameState :=
  { players := [{ name := "a", chips := 0, is_bot := true, hand := [], bet := 30,
                  in_hand := true, is_all_in := true, status := "ALL-IN" },
                { name := "e", chips := 100, is_bot := false, hand := [], bet := 30,
                  in_hand := true, is_all_in := false, status := "" },
                { name := "f", chips := 50, is_bot := true, hand := [], bet := 0,
                  in_hand := false, is_all_in := false, status := "FOLD" }],
    deck := [⟨0, 2⟩, ⟨0, 3⟩, ⟨0, 4⟩, ⟨0, 5⟩, ⟨0, 6⟩], community_cards := [], pot := 40,
    dealer_pos := 0, current_player_index := 0, current_bet := 30, last_raise := 20,
    stage := "Pre-Flop", small_blind := 10, big_blind := 20 }

/-- A state with a folded bot holding two known cards and an in-hand bot
holding one card — used for the redaction theorems. -/
def c9G : GameState :=
  { players := [{ name := "You", chips := 1000, is_bot := false, hand := [⟨0, 7⟩, ⟨1, 8⟩], bet := 0,
                  in_hand := true, is_all_in := false, status := "" },
                { name := "Bot Alice", chips := 900, is_bot := true, hand := [⟨0, 14⟩, ⟨1, 13⟩], bet := 0,
                  in_hand := false, is_all_in := false, status := "FOLD" },
                { name := "Bot Bob", chips := 800, is_bot := true, hand := [⟨2, 9⟩], bet := 0,
                  in_hand := true, is_all_in := false, status := "" }],
    deck := [], community_cards := [], pot := 0, dealer_pos := 0,
    current_player_index := 0, current_bet := 0, last_raise := 20,
    stage := "Flop", small_blind := 10, big_blind := 20 }

/-- Blind seats shorter than the blinds: seat 1 (small blind) holds 5 < 10,
seat 2 (big blind) holds 15 < 20. -/
def c10G : GameState :=
  { players := [{ name := "d", chips := 100, is_bot := false, hand := [], bet := 0,
                  in_hand := true, is_all_in := false, status := "" },
                { name := "s", chips := 5, is_bot := true, hand := [], bet := 0,
                  in_hand := true, is_all_in := false, status := "" },
                { name := "b", chips := 15, is_bot := true, hand := [], bet := 0,
                  in_hand := true, is_all_in := false, status := "" }],
    deck := [], community_cards := [], pot := 0, dealer_pos := 0,
    current_player_index := 0, current_bet := 0, last_raise := 0,
    stage := "Idle", small_blind := 10, big_blind := 20 }

/-- A decision source that always checks. -/
def oracleCheck : GameState → Nat → ActionData := fun _ _ => ⟨"check", 0⟩

/-- A decision source that always folds. -/
def oracleFold : GameState → Nat → ActionData := fun _ _ => ⟨"fold", 0⟩

/-! ## Helper lemmas -/

theorem listGetD_set_self (l : List Player) (i : Nat) (p : Player) (h : i < l.length) :
    (l.set i p).getD i dummyPlayer = p := by
  simp [List.getD_eq_getElem?_getD, List.getElem?_set_self h]

theorem listGetD_set_ne (l : List Player) (i j : Nat) (p : Player) (h : i ≠ j) :
    (l.set i p).getD j dummyPlayer = l.getD j dummyPlayer := by
  simp [List.getD_eq_getElem?_getD, List.getElem?_set_ne h]

theorem listGetD_ge (l : List Player) (j : Nat) (h : l.length ≤ j) :
    l.getD j dummyPlayer = dummyPlayer := by
  simp [List.getD_eq_getElem?_getD, List.getElem?_eq_none h]

theorem collect_foldl_eq (l : List Player) (pot : Int) (acc : List Player) :
    l.foldl (fun (a : Int × List Player) p => (a.1 + p.bet, a.2 ++ [{ p with bet := 0 }]))
      (pot, acc)
      = (pot + (l.map Player.bet).sum, acc ++ l.map (fun p => { p with bet := 0 })) := by
  induction l generalizing pot acc with
  | nil => simp
  | cons p t ih => simp [ih, add_assoc]

theorem collect_bets_def (g : GameState) :
    collect_bets g
      = { g with pot := g.pot + (g.players.map Player.bet).sum,
                 players := g.players.map (fun p => { p with bet := 0 }) } := by
  simp [collect_bets, collect_foldl_eq]

theorem sum_bets_zero (l : List Player) :
    (List.map (Player.bet ∘ fun p => { p with bet := 0 }) l).sum = 0 := by
  apply List.sum_eq_zero
  intro x hx
  obtain ⟨a, _, ha⟩ := List.mem_map.mp hx
  rw [← ha]
  rfl

theorem countInHand_map_zero (l : List Player) :
    countInHand (l.map (fun p => { p with bet := 0 })) = countInHand l := by
  unfold countInHand
  rw [List.filter_map]
  simp [Function.comp_def]

theorem playersWithOption_map_zero (l : List Player) :
    playersWithOption (l.map (fun p => { p with bet := 0 })) = playersWithOption l := by
  unfold playersWithOption
  rw [List.filter_map]
  simp [Function.comp_def]

/-! ## Claim theorems -/

/-- C1: for straight flushes the code returns category 10 whenever the sorted
values start with an ace (`values[0] == 14`), so the suited wheel
A♠2♠3♠4♠5♠ — a straight flush that is *not* ace-high — is classified 10
(Royal Flush), not 9 as the specification demands; the genuinely ace-high
T♠J♠Q♠K♠A♠ is 10 and an ace-free straight flush is 9. -/
theorem C1_suited_wheel_is_royal :
    (calculate_hand_rank [⟨0, 14⟩, ⟨0, 2⟩, ⟨0, 3⟩, ⟨0, 4⟩, ⟨0, 5⟩]).1 = 10
    ∧ (calculate_hand_rank [⟨0, 10⟩, ⟨0, 11⟩, ⟨0, 12⟩, ⟨0, 13⟩, ⟨0, 14⟩]).1 = 10
    ∧ (calculate_hand_rank [⟨0, 9⟩, ⟨0, 8⟩, ⟨0, 7⟩, ⟨0, 6⟩, ⟨0, 5⟩]).1 = 9 := by
  decide

/-- C2: the full-house branch returns the hand sorted descending by value
only, with no trips-first re-ordering, so 2♠2♥2♦A♣A♠ is ordered
[A,A,2,2,2] and `_compare_hands` ranks it *above* K♠K♥K♦Q♣Q♠, contrary to
the claim. -/
theorem C2_full_house_pair_first :
    (calculate_hand_rank [⟨0, 2⟩, ⟨1, 2⟩, ⟨2, 2⟩, ⟨3, 14⟩, ⟨0, 14⟩]).1 = 7
    ∧ (calculate_hand_rank [⟨0, 13⟩, ⟨1, 13⟩, ⟨2, 13⟩, ⟨3, 12⟩, ⟨0, 12⟩]).1 = 7
    ∧ (calculate_hand_rank [⟨0, 2⟩, ⟨1, 2⟩, ⟨2, 2⟩, ⟨3, 14⟩, ⟨0, 14⟩]).2.map Card.value
        = [14, 14, 2, 2, 2]
    ∧ compare_hands (calculate_hand_rank [⟨0, 2⟩, ⟨1, 2⟩, ⟨2, 2⟩, ⟨3, 14⟩, ⟨0, 14⟩]).2
        (calculate_hand_rank [⟨0, 13⟩, ⟨1, 13⟩, ⟨2, 13⟩, ⟨3, 12⟩, ⟨0, 12⟩]).2 = 1 := by
  decide

/-- C8: the non-flush wheel A♠2♥3♦4♣5♠ is indeed category 5, but the wheel
re-ordering `sorted(hand, key=lambda c: (c.value != 14, c.value))` puts the
ace at the *front* (its key tuple starts with False), so the tie-break
sequence is [A,2,3,4,5] and `_compare_hands` ranks the wheel *above* the
6-high straight, contrary to the claim. -/
theorem C8_wheel_ace_high_in_ordering :
    (calculate_hand_rank [⟨0, 14⟩, ⟨1, 2⟩, ⟨2, 3⟩, ⟨3, 4⟩, ⟨0, 5⟩]).1 = 5
    ∧ (calculate_hand_rank [⟨0, 14⟩, ⟨1, 2⟩, ⟨2, 3⟩, ⟨3, 4⟩, ⟨0, 5⟩]).2.map Card.value
        = [14, 2, 3, 4, 5]
    ∧ (calculate_hand_rank [⟨0, 6⟩, ⟨1, 5⟩, ⟨2, 4⟩, ⟨3, 3⟩, ⟨0, 2⟩]).1 = 5
    ∧ compare_hands (calculate_hand_rank [⟨0, 14⟩, ⟨1, 2⟩, ⟨2, 3⟩, ⟨3, 4⟩, ⟨0, 5⟩]).2
        (calculate_hand_rank [⟨0, 6⟩, ⟨1, 5⟩, ⟨2, 4⟩, ⟨3, 3⟩, ⟨0, 2⟩]).2 = 1 := by
  decide

/-- C4: `collect_bets` adds exactly the prior sum of all `bet` fields to the
pot, zeroes every `bet` while touching no other player field, leaves the
rest of the state unchanged, and therefore preserves `pot + Σ bet`. -/
theorem C4_collect_bets_roundtrip (g : GameState) :
    (collect_bets g).pot = g.pot + (g.players.map Player.bet).sum
    ∧ (collect_bets g).players = g.players.map (fun p => { p with bet := 0 })
    ∧ (collect_bets g).pot + ((collect_bets g).players.map Player.bet).sum
        = g.pot + (g.players.map Player.bet).sum
    ∧ (collect_bets g).deck = g.deck
    ∧ (collect_bets g).community_cards = g.community_cards
    ∧ (collect_bets g).dealer_pos = g.dealer_pos
    ∧ (collect_bets g).current_player_index = g.current_player_index
    ∧ (collect_bets g).current_bet = g.current_bet
    ∧ (collect_bets g).last_raise = g.last_raise
    ∧ (collect_bets g).stage = g.stage
    ∧ (collect_bets g).small_blind = g.small_blind
    ∧ (collect_bets g).big_blind = g.big_blind := by
  refine ⟨?_, ?_, ?_, ?_, ?_, ?_, ?_, ?_, ?_, ?_, ?_, ?_⟩ <;>
    simp [collect_bets_def, sum_bets_zero]

theorem listGetD_map_zero (l : List Player) (j : Nat) :
    (l.map (fun p => { p with bet := 0 })).getD j dummyPlayer
      = { l.getD j dummyPlayer with bet := 0 } :=
  @List.getD_map Player Player l dummyPlayer j (fun p => { p with bet := 0 })

theorem hpaStep_bet_raise (g : GameState) (i : Nat) (d : ActionData)
    (h : d.action = "bet" ∨ d.action = "raise") :
    (hpaStep g i d).1.chips
        = (g.players.getD i dummyPlayer).chips
          - (min d.amount ((g.players.getD i dummyPlayer).chips + (g.players.getD i dummyPlayer).bet)
             - (g.players.getD i dummyPlayer).bet)
    ∧ (hpaStep g i d).1.bet
        = (g.players.getD i dummyPlayer).bet
          + (min d.amount ((g.players.getD i dummyPlayer).chips + (g.players.getD i dummyPlayer).bet)
             - (g.players.getD i dummyPlayer).bet) := by
  refine ⟨?_, ?_⟩ <;> rcases h with h | h <;>
  · unfold hpaStep
    simp [h]
    split <;> rfl

theorem hpaPlayer_chips_bet (g : GameState) (i : Nat) (d : ActionData) :
    (hpaPlayer g i d).chips = (hpaStep g i d).1.chips
    ∧ (hpaPlayer g i d).bet = (hpaStep g i d).1.bet := by
  unfold hpaPlayer
  split <;> exact ⟨rfl, rfl⟩

theorem hpaStep_chips_nonneg (g : GameState) (i : Nat) (d : ActionData)
    (h : 0 ≤ (g.players.getD i dummyPlayer).chips) :
    0 ≤ (hpaStep g i d).1.chips := by
  unfold hpaStep
  split_ifs
  · exact h
  · exact h
  · show 0 ≤ (g.players.getD i dummyPlayer).chips
      - min (g.current_bet - (g.players.getD i dummyPlayer).bet) (g.players.getD i dummyPlayer).chips
    linarith [min_le_right (g.current_bet - (g.players.getD i dummyPlayer).bet)
      (g.players.getD i dummyPlayer).chips]
  · simp only []
    split
    all_goals
      show 0 ≤ (g.players.getD i dummyPlayer).chips
        - (min d.amount ((g.players.getD i dummyPlayer).chips + (g.players.getD i dummyPlayer).bet)
           - (g.players.getD i dummyPlayer).bet)
      linarith [min_le_right d.amount
        ((g.players.getD i dummyPlayer).chips + (g.players.getD i dummyPlayer).bet)]
  · exact h

theorem applyStep_chips_nonneg (g : GameState) (s : HandStep) (j : Nat)
    (h : 0 ≤ (g.players.getD j dummyPlayer).chips) :
    0 ≤ ((applyStep g s).players.getD j dummyPlayer).chips := by
  cases s with
  | collect =>
    rw [show applyStep g HandStep.collect = collect_bets g from rfl, collect_bets_def]
    show 0 ≤ ((g.players.map (fun p => { p with bet := 0 })).getD j dummyPlayer).chips
    rw [listGetD_map_zero]
    exact h
  | act i d =>
    show 0 ≤ (((handle_player_action g i d).1).players.getD j dummyPlayer).chips
    unfold handle_player_action
    by_cases hj : j < g.players.length
    · by_cases hij : i = j
      · subst hij
        show 0 ≤ ((g.players.set i (hpaPlayer g i d)).getD i dummyPlayer).chips
        rw [listGetD_set_self _ _ _ hj]
        rw [(hpaPlayer_chips_bet g i d).1]
        exact hpaStep_chips_nonneg g i d h
      · show 0 ≤ ((g.players.set i (hpaPlayer g i d)).getD j dummyPlayer).chips
        rw [listGetD_set_ne _ _ _ _ hij]
        exact h
    · show 0 ≤ ((g.players.set i (hpaPlayer g i d)).getD j dummyPlayer).chips
      rw [listGetD_ge _ _ (by rw [List.length_set]; omega)]
      exact le_refl 0

theorem applySteps_chips_nonneg (steps : List HandStep) : ∀ (g : GameState) (j : Nat),
    0 ≤ (g.players.getD j dummyPlayer).chips →
    0 ≤ ((applySteps g steps).players.getD j dummyPlayer).chips := by
  induction steps with
  | nil => intro g j h; exact h
  | cons s t ih => intro g j h; exact ih _ _ (applyStep_chips_nonneg g s j h)

/-- C3: a bet/raise with any requested integer amount is clamped, never
rejected: the resulting personal bet is exactly
`min(amount, chips + currentBet)` of the acting player, hence bounded by
`chips + currentBet`; the player's chips stay non-negative, the action moves
only the delta between chips and bet, and over any further sequence of
actions and bet collections the chips stay non-negative, so the total amount
wagered out of the stack never exceeds the chips held at the start. -/
theorem C3_bet_raise_clamped (g : GameState) (i : Nat) (d : ActionData)
    (steps : List HandStep)
    (hact : d.action = "bet" ∨ d.action = "raise")
    (hi : i < g.players.length)
    (hchips : 0 ≤ (g.players.getD i dummyPlayer).chips) :
    ((handle_player_action g i d).1.players.getD i dummyPlayer).bet
        = min d.amount ((g.players.getD i dummyPlayer).chips + (g.players.getD i dummyPlayer).bet)
    ∧ ((handle_player_action g i d).1.players.getD i dummyPlayer).bet
        ≤ (g.players.getD i dummyPlayer).chips + (g.players.getD i dummyPlayer).bet
    ∧ 0 ≤ ((handle_player_action g i d).1.players.getD i dummyPlayer).chips
    ∧ ((handle_player_action g i d).1.players.getD i dummyPlayer).chips
        + ((handle_player_action g i d).1.players.getD i dummyPlayer).bet
        = (g.players.getD i dummyPlayer).chips + (g.players.getD i dummyPlayer).bet
    ∧ 0 ≤ ((applySteps g steps).players.getD i dummyPlayer).chips
    ∧ (g.players.getD i dummyPlayer).chips
        - ((applySteps g steps).players.getD i dummyPlayer).chips
        ≤ (g.players.getD i dummyPlayer).chips := by
  have hset : (handle_player_action g i d).1.players.getD i dummyPlayer = hpaPlayer g i d := by
    unfold handle_player_action
    exact listGetD_set_self _ _ _ hi
  have hcb := hpaPlayer_chips_bet g i d
  have hbr := hpaStep_bet_raise g i d hact
  have hsteps := applySteps_chips_nonneg steps g i hchips
  refine ⟨?_, ?_, ?_, ?_, hsteps, by linarith⟩
  · rw [hset, hcb.2, hbr.2]; ring
  · rw [hset, hcb.2, hbr.2]
    linarith [min_le_right d.amount
      ((g.players.getD i dummyPlayer).chips + (g.players.getD i dummyPlayer).bet)]
  · rw [hset, hcb.1, hbr.1]
    linarith [min_le_right d.amount
      ((g.players.getD i dummyPlayer).chips + (g.players.getD i dummyPlayer).bet)]
  · rw [hset, hcb.1, hcb.2, hbr.1, hbr.2]; ring

/-- Witness for C3 at a concrete input: one seat with 100 chips requests a
bet of 150; the bet is clamped to 100 and chips stay non-negative. -/
theorem C3_witness :
    ((handle_player_action c3G 0 ⟨"bet", 150⟩).1.players.getD 0 dummyPlayer).bet = 100
    ∧ 0 ≤ ((handle_player_action c3G 0 ⟨"bet", 150⟩).1.players.getD 0 dummyPlayer).chips
    ∧ 0 ≤ ((applySteps c3G [HandStep.act 0 ⟨"bet", 150⟩, HandStep.collect]).players.getD
        0 dummyPlayer).chips := by
  have h := C3_bet_raise_clamped c3G 0 ⟨"bet", 150⟩
    [HandStep.act 0 ⟨"bet", 150⟩, HandStep.collect] (Or.inl rfl) (by decide) (by decide)
  refine ⟨?_, h.2.2.1, h.2.2.2.2.1⟩
  rw [h.1]
  decide

theorem nextActiveAux_succ (ps : List Player) (start f i : Nat) :
    nextActiveAux ps start (f + 1) i
      = (if eligB ps ((i + 1) % ps.length) then ((i + 1) % ps.length)
         else nextActiveAux ps start f ((i + 1) % ps.length)) := rfl

theorem nextActiveAux_not_found (ps : List Player) (start : Nat) :
    ∀ (fuel i : Nat),
    (∀ m, 1 ≤ m → m ≤ fuel → eligB ps ((i + m) % ps.length) = false) →
    nextActiveAux ps start fuel i = start := by
  intro fuel
  induction fuel with
  | zero => intro i _; rfl
  | succ f ih =>
    intro i h
    rw [nextActiveAux_succ]
    have h1 : eligB ps ((i + 1) % ps.length) = false := h 1 le_rfl (by omega)
    rw [if_neg (by simp [h1])]
    apply ih
    intro m hm1 hmf
    have hmod : ((i + 1) % ps.length + m) % ps.length = (i + (m + 1)) % ps.length := by
      rw [Nat.mod_add_mod]
      congr 1
      omega
    rw [hmod]
    exact h (m + 1) (by omega) (by omega)

theorem nextActiveAux_found (ps : List Player) (start : Nat) :
    ∀ (fuel i k : Nat),
    1 ≤ k → k ≤ fuel →
    eligB ps ((i + k) % ps.length) = true →
    (∀ m, 1 ≤ m → m < k → eligB ps ((i + m) % ps.length) = false) →
    nextActiveAux ps start fuel i = (i + k) % ps.length := by
  intro fuel
  induction fuel with
  | zero => intro i k hk hkf _ _; omega
  | succ f ih =>
    intro i k hk hkf helig hmin
    rw [nextActiveAux_succ]
    by_cases hk1 : k = 1
    · subst hk1
      rw [if_pos helig]
    · have h1 : eligB ps ((i + 1) % ps.length) = false := hmin 1 le_rfl (by omega)
      rw [if_neg (by simp [h1])]
      have hmod : ∀ m : Nat, ((i + 1) % ps.length + m) % ps.length
          = (i + (m + 1)) % ps.length := by
        intro m
        rw [Nat.mod_add_mod]
        congr 1
        omega
      have hmod2 : ((i + 1) % ps.length + (k - 1)) % ps.length = (i + k) % ps.length := by
        rw [Nat.mod_add_mod]
        congr 1
        omega
      have hres := ih ((i + 1) % ps.length) (k - 1) (by omega) (by omega)
        (by rw [hmod2]; exact helig)
        (by intro m hm1 hmk
            rw [hmod]
            exact hmin (m + 1) (by omega) (by omega))
      rw [hres, hmod2]

theorem probe_cover (n s r : Nat) (hn : 0 < n) (hr : r < n) :
    ∃ m, 1 ≤ m ∧ m ≤ n ∧ (s + m) % n = r := by
  have hs : s % n < n := Nat.mod_lt _ hn
  refine ⟨(r + n - (s % n + 1)) % n + 1, by omega,
    by have := Nat.mod_lt (r + n - (s % n + 1)) hn; omega, ?_⟩
  have h1 : s % n + 1 ≤ r + n := by omega
  calc (s + ((r + n - (s % n + 1)) % n + 1)) % n
      = (s % n + ((r + n - (s % n + 1)) % n + 1)) % n := by rw [Nat.mod_add_mod]
    _ = (s % n + 1 + (r + n - (s % n + 1)) % n) % n := by ring_nf
    _ = (s % n + 1 + (r + n - (s % n + 1))) % n := by rw [Nat.add_mod_mod]
    _ = (r + n) % n := by rw [Nat.add_sub_cancel' h1]
    _ = r % n := Nat.add_mod_right r n
    _ = r := Nat.mod_eq_of_lt hr

/-- C6: with at least one seat, `get_next_active_player` returns the start
index unchanged when no seat is `in_hand` and not all-in; otherwise, after
scanning forward circularly, it returns the first eligible seat, reached in
at most `seats` forward steps (so it wraps at most once and never selects a
folded or all-in seat); the scan itself is bounded by `seats + 1` probes by
construction of `nextActiveAux`. -/
theorem C6_next_active_player (ps : List Player) (start : Nat) (hn : 0 < ps.length) :
    ((∀ j, j < ps.length → eligB ps j = false) → get_next_active_player ps start = start)
    ∧ ((∃ j, j < ps.length ∧ eligB ps j = true) →
        ∃ k, 1 ≤ k ∧ k ≤ ps.length
          ∧ get_next_active_player ps start = (start + k) % ps.length
          ∧ eligB ps ((start + k) % ps.length) = true
          ∧ ∀ m, 1 ≤ m → m < k → eligB ps ((start + m) % ps.length) = false) := by
  constructor
  · intro hall
    apply nextActiveAux_not_found
    intro m _ _
    exact hall _ (Nat.mod_lt _ hn)
  · rintro ⟨j, hj, hje⟩
    obtain ⟨m0, hm01, hm0n, hm0r⟩ := probe_cover ps.length start j hn hj
    have hexQ : ∃ m, 1 ≤ m ∧ eligB ps ((start + m) % ps.length) = true :=
      ⟨m0, hm01, by rw [hm0r]; exact hje⟩
    have hkQ := Nat.find_spec hexQ
    have hkle : Nat.find hexQ ≤ m0 := Nat.find_min' hexQ ⟨hm01, by rw [hm0r]; exact hje⟩
    have hmin : ∀ m, 1 ≤ m → m < Nat.find hexQ →
        eligB ps ((start + m) % ps.length) = false := by
      intro m hm1 hmk
      have hne := Nat.find_min hexQ hmk
      cases heq : eligB ps ((start + m) % ps.length) with
      | false => rfl
      | true => exact absurd ⟨hm1, heq⟩ hne
    exact ⟨Nat.find hexQ, hkQ.1, le_trans hkle hm0n,
      nextActiveAux_found ps start (ps.length + 1) start (Nat.find hexQ)
        hkQ.1 (by omega) hkQ.2 hmin,
      hkQ.2, hmin⟩

/-- Witness for C6: seats [folded, all-in, eligible], scanning from 0 skips
seats 1 (all-in) and lands on seat 2; from a fully ineligible pair of seats
the start index comes back unchanged. -/
theorem C6_witness :
    0 < c6Ps.length
    ∧ (∃ j, j < c6Ps.length ∧ eligB c6Ps j = true)
    ∧ get_next_active_player c6Ps 0 = 2
    ∧ eligB c6Ps (get_next_active_player c6Ps 0) = true := by
  have h := (C6_next_active_player c6Ps 0 (by decide)).2 ⟨2, by decide, by decide⟩
  obtain ⟨k, hk1, hkn, hres, helig, _⟩ := h
  refine ⟨by decide, ⟨2, by decide, by decide⟩, ?_, ?_⟩
  · decide
  · rw [hres]; exact helig

theorem post_blinds_players (g : GameState) :
    (post_blinds g).players
      = (g.players.set (sbPos g) (pbSB g)).set (bbPos g) (pbBB g) := rfl

theorem next_from_pred (ps : List Player) (j : Nat) (hn : 0 < ps.length)
    (hj : j < ps.length) (he : eligB ps j = true) :
    get_next_active_player ps ((j + ps.length - 1) % ps.length) = j := by
  unfold get_next_active_player
  have hmod : ((j + ps.length - 1) % ps.length + 1) % ps.length = j := by
    rw [Nat.mod_add_mod]
    have h1 : j + ps.length - 1 + 1 = j + ps.length := by omega
    rw [h1, Nat.add_mod_right, Nat.mod_eq_of_lt hj]
  have h := nextActiveAux_found ps ((j + ps.length - 1) % ps.length) (ps.length + 1)
    ((j + ps.length - 1) % ps.length) 1 le_rfl (by omega)
    (by rw [hmod]; exact he)
    (fun m hm1 hm2 => absurd hm2 (by omega))
  rw [hmod] at h
  exact h

theorem post_blinds_flags (g : GameState)
    (hsb : sbPos g < g.players.length) (hbb : bbPos g < g.players.length)
    (hne : sbPos g ≠ bbPos g) (j : Nat) :
    ((post_blinds g).players.getD j dummyPlayer).in_hand
        = (g.players.getD j dummyPlayer).in_hand
    ∧ ((post_blinds g).players.getD j dummyPlayer).is_all_in
        = (g.players.getD j dummyPlayer).is_all_in
    ∧ ((post_blinds g).players.getD j dummyPlayer).status
        = (g.players.getD j dummyPlayer).status := by
  rw [post_blinds_players]
  by_cases hj : j < g.players.length
  · by_cases hjb : bbPos g = j
    · subst hjb
      rw [listGetD_set_self _ _ _ (by rw [List.length_set]; exact hbb)]
      rw [show pbBB g = { (g.players.set (sbPos g) (pbSB g)).getD (bbPos g) dummyPlayer with
            chips := ((g.players.set (sbPos g) (pbSB g)).getD (bbPos g) dummyPlayer).chips
              - min g.big_blind ((g.players.set (sbPos g) (pbSB g)).getD (bbPos g) dummyPlayer).chips,
            bet := min g.big_blind ((g.players.set (sbPos g) (pbSB g)).getD (bbPos g) dummyPlayer).chips }
          from rfl]
      rw [listGetD_set_ne _ _ _ _ hne]
      exact ⟨rfl, rfl, rfl⟩
    · rw [listGetD_set_ne _ _ _ _ hjb]
      by_cases hjs : sbPos g = j
      · subst hjs
        rw [listGetD_set_self _ _ _ hsb]
        exact ⟨rfl, rfl, rfl⟩
      · rw [listGetD_set_ne _ _ _ _ hjs]
        exact ⟨rfl, rfl, rfl⟩
  · rw [listGetD_ge _ _ (by rw [List.length_set, List.length_set]; omega),
      listGetD_ge _ _ (by omega)]
    exact ⟨rfl, rfl, rfl⟩

/-- C10: when a blind seat holds no more chips than its blind, `post_blinds`
clamps the posted amount to the stack, leaving chips 0 and bet equal to the
prior stack, but no player's `in_hand`, `is_all_in` or `status` field is
touched (the all-in flag is set only inside `handle_player_action`), so a
still-eligible zero-chip seat remains selectable by
`get_next_active_player`. -/
theorem C10_post_blinds_clamp (g : GameState)
    (hsb : sbPos g < g.players.length) (hbb : bbPos g < g.players.length)
    (hne : sbPos g ≠ bbPos g) :
    (∀ j, ((post_blinds g).players.getD j dummyPlayer).in_hand
            = (g.players.getD j dummyPlayer).in_hand
          ∧ ((post_blinds g).players.getD j dummyPlayer).is_all_in
            = (g.players.getD j dummyPlayer).is_all_in
          ∧ ((post_blinds g).players.getD j dummyPlayer).status
            = (g.players.getD j dummyPlayer).status)
    ∧ ((g.players.getD (sbPos g) dummyPlayer).chips ≤ g.small_blind →
        ((post_blinds g).players.getD (sbPos g) dummyPlayer).chips = 0
        ∧ ((post_blinds g).players.getD (sbPos g) dummyPlayer).bet
            = (g.players.getD (sbPos g) dummyPlayer).chips)
    ∧ ((g.players.getD (bbPos g) dummyPlayer).chips ≤ g.big_blind →
        ((post_blinds g).players.getD (bbPos g) dummyPlayer).chips = 0
        ∧ ((post_blinds g).players.getD (bbPos g) dummyPlayer).bet
            = (g.players.getD (bbPos g) dummyPlayer).chips)
    ∧ (eligB g.players (sbPos g) = true →
        ∃ s, get_next_active_player (post_blinds g).players s = sbPos g)
    ∧ (eligB g.players (bbPos g) = true →
        ∃ s, get_next_active_player (post_blinds g).players s = bbPos g) := by
  have hsbP : (post_blinds g).players.getD (sbPos g) dummyPlayer = pbSB g := by
    rw [post_blinds_players, listGetD_set_ne _ _ _ _ (Ne.symm hne),
      listGetD_set_self _ _ _ hsb]
  have hbbP : (post_blinds g).players.getD (bbPos g) dummyPlayer = pbBB g := by
    rw [post_blinds_players,
      listGetD_set_self _ _ _ (by rw [List.length_set]; exact hbb)]
  have hbbQ : (g.players.set (sbPos g) (pbSB g)).getD (bbPos g) dummyPlayer
      = g.players.getD (bbPos g) dummyPlayer := listGetD_set_ne _ _ _ _ hne
  have hlen : (post_blinds g).players.length = g.players.length := by
    rw [post_blinds_players, List.length_set, List.length_set]
  have hflags := post_blinds_flags g hsb hbb hne
  have heligp : ∀ j, eligB (post_blinds g).players j = eligB g.players j := by
    intro j
    unfold eligB
    rw [(hflags j).1, (hflags j).2.1]
  refine ⟨hflags, ?_, ?_, ?_, ?_⟩
  · intro hch
    rw [hsbP]
    unfold pbSB
    constructor
    · show (g.players.getD (sbPos g) dummyPlayer).chips
        - min g.small_blind (g.players.getD (sbPos g) dummyPlayer).chips = 0
      rw [min_eq_right hch, sub_self]
    · show min g.small_blind (g.players.getD (sbPos g) dummyPlayer).chips
        = (g.players.getD (sbPos g) dummyPlayer).chips
      exact min_eq_right hch
  · intro hch
    rw [hbbP]
    unfold pbBB
    rw [hbbQ]
    constructor
    · show (g.players.getD (bbPos g) dummyPlayer).chips
        - min g.big_blind (g.players.getD (bbPos g) dummyPlayer).chips = 0
      rw [min_eq_right hch, sub_self]
    · show min g.big_blind (g.players.getD (bbPos g) dummyPlayer).chips
        = (g.players.getD (bbPos g) dummyPlayer).chips
      exact min_eq_right hch
  · intro he
    refine ⟨(sbPos g + (post_blinds g).players.length - 1) % (post_blinds g).players.length, ?_⟩
    apply next_from_pred
    · rw [hlen]; omega
    · rw [hlen]; exact hsb
    · rw [heligp]; exact he
  · intro he
    refine ⟨(bbPos g + (post_blinds g).players.length - 1) % (post_blinds g).players.length, ?_⟩
    apply next_from_pred
    · rw [hlen]; omega
    · rw [hlen]; exact hbb
    · rw [heligp]; exact he

/-- Witness for C10: blinds 10/20, seat 1 holds 5 and seat 2 holds 15; both
are clamped to all of their chips, stay `in_hand` with `is_all_in` false,
and remain selectable. -/
theorem C10_witness :
    sbPos c10G = 1 ∧ bbPos c10G = 2
    ∧ ((post_blinds c10G).players.getD 1 dummyPlayer).chips = 0
    ∧ ((post_blinds c10G).players.getD 1 dummyPlayer).bet = 5
    ∧ ((post_blinds c10G).players.getD 2 dummyPlayer).chips = 0
    ∧ ((post_blinds c10G).players.getD 2 dummyPlayer).bet = 15
    ∧ ((post_blinds c10G).players.getD 1 dummyPlayer).is_all_in = false
    ∧ (∃ s, get_next_active_player (post_blinds c10G).players s = 1) := by
  have h := C10_post_blinds_clamp c10G (by decide) (by decide) (by decide)
  have hsb : sbPos c10G = 1 := by decide
  have hbb : bbPos c10G = 2 := by decide
  have h2 := h.2.1 (by rw [hsb]; decide)
  have h3 := h.2.2.1 (by rw [hbb]; decide)
  have h4 := h.2.2.2.1 (by rw [hsb]; decide)
  have h5 := (h.1 1).2.1
  refine ⟨hsb, hbb, ?_, ?_, ?_, ?_, ?_, ?_⟩
  · rw [← hsb]; exact h2.1
  · rw [← hsb]; rw [hsb] at h2; exact h2.2
  · rw [← hbb]; exact h3.1
  · rw [← hbb]; rw [hbb] at h3; exact h3.2
  · rw [h5]; decide
  · rw [← hsb]; exact h4

theorem dealOne_none (g : GameState) (h : g.deck.getLast? = none) :
    dealOne g = (g, none) := by
  unfold dealOne
  rw [h]

theorem dealOne_some (g : GameState) (c : Card) (h : g.deck.getLast? = some c) :
    dealOne g = ({ g with deck := g.deck.dropLast }, some c) := by
  unfold dealOne
  rw [h]

theorem dealCommunityN_pre : ∀ (n : Nat) (g : GameState),
    (dealCommunityN n g).players = g.players
    ∧ (dealCommunityN n g).pot = g.pot
    ∧ (dealCommunityN n g).current_bet = g.current_bet := by
  intro n
  induction n with
  | zero => intro g; exact ⟨rfl, rfl, rfl⟩
  | succ m ih =>
    intro g
    cases hd : g.deck.getLast? with
    | none =>
      have hstep : dealCommunityN (m + 1) g = dealCommunityN m g := by
        simp only [dealCommunityN, dealOne_none g hd]
      rw [hstep]
      exact ih g
    | some c =>
      have hstep : dealCommunityN (m + 1) g
          = dealCommunityN m
              { g with deck := g.deck.dropLast,
                       community_cards := g.community_cards ++ [c] } := by
        simp only [dealCommunityN, dealOne_some g c hd]
      rw [hstep]
      exact ⟨(ih _).1, (ih _).2.1, (ih _).2.2⟩

theorem deal_phase_facts (g : GameState) (c : Nat) :
    ((if c > 0 then dealCommunityN c (dealOne g).1 else g).players = g.players)
    ∧ ((if c > 0 then dealCommunityN c (dealOne g).1 else g).pot = g.pot)
    ∧ ((if c > 0 then dealCommunityN c (dealOne g).1 else g).current_bet = g.current_bet) := by
  by_cases hc : c > 0
  · have hone : (dealOne g).1.players = g.players
        ∧ (dealOne g).1.pot = g.pot ∧ (dealOne g).1.current_bet = g.current_bet := by
      cases hd : g.deck.getLast? with
      | none => rw [dealOne_none g hd]; exact ⟨rfl, rfl, rfl⟩
      | some cc => rw [dealOne_some g cc hd]; exact ⟨rfl, rfl, rfl⟩
    refine ⟨?_, ?_, ?_⟩ <;> rw [if_pos hc]
    · rw [(dealCommunityN_pre c _).1, hone.1]
    · rw [(dealCommunityN_pre c _).2.1, hone.2.1]
    · rw [(dealCommunityN_pre c _).2.2, hone.2.2]
  · refine ⟨?_, ?_, ?_⟩ <;> rw [if_neg hc]

theorem pre_facts (g : GameState) (st : String) (c : Nat) :
    ((bettingRoundPre g st c).players
        = if st = "Pre-Flop" then g.players
          else g.players.map (fun p => { p with bet := 0 }))
    ∧ (bettingRoundPre g st c).pot = g.pot
    ∧ ((bettingRoundPre g st c).current_bet
        = if st = "Pre-Flop" then g.current_bet else 0) := by
  unfold bettingRoundPre
  by_cases hst : st = "Pre-Flop"
  · simp only [if_neg (not_not_intro hst), if_pos hst]
    exact deal_phase_facts _ c
  · simp only [if_pos hst, if_neg hst]
    exact deal_phase_facts _ c

/-- C7: when fewer than two seats can still act and the round's bet level is
zero (post-flop streets reset it to zero; pre-flop it must already be zero),
`betting_round` consults no decision source at all — the result is the same
for every oracle — and simply collects the current-round bets into the pot,
zeroing all `bet` fields, and reports `true` exactly when at least two
players remain in hand. -/
theorem C7_closure_skip (oA oB : GameState → Nat → ActionData) (fuel : Nat)
    (g : GameState) (st : String) (c : Nat)
    (h1 : playersWithOption g.players < 2)
    (h2 : st = "Pre-Flop" → g.current_bet = 0) :
    betting_round oA fuel g st c
      = (collect_bets (bettingRoundPre g st c), decide (1 < countInHand g.players))
    ∧ betting_round oA fuel g st c = betting_round oB fuel g st c
    ∧ (betting_round oA fuel g st c).1.pot
        = (bettingRoundPre g st c).pot
          + ((bettingRoundPre g st c).players.map Player.bet).sum
    ∧ (betting_round oA fuel g st c).1.players
        = (bettingRoundPre g st c).players.map (fun p => { p with bet := 0 })
    ∧ ((betting_round oA fuel g st c).2 = true ↔ 1 < countInHand g.players) := by
  have hP := pre_facts g st c
  have hopt : playersWithOption (bettingRoundPre g st c).players < 2 := by
    rw [hP.1]
    by_cases hst : st = "Pre-Flop"
    · rw [if_pos hst]; exact h1
    · rw [if_neg hst, playersWithOption_map_zero]; exact h1
  have hcb : (bettingRoundPre g st c).current_bet = 0 := by
    rw [hP.2.2]
    by_cases hst : st = "Pre-Flop"
    · rw [if_pos hst]; exact h2 hst
    · rw [if_neg hst]
  have hcnt : countInHand (collect_bets (bettingRoundPre g st c)).players
      = countInHand g.players := by
    rw [collect_bets_def]
    show countInHand ((bettingRoundPre g st c).players.map (fun p => { p with bet := 0 }))
      = countInHand g.players
    rw [countInHand_map_zero, hP.1]
    by_cases hst : st = "Pre-Flop"
    · rw [if_pos hst]
    · rw [if_neg hst, countInHand_map_zero]
  have hmain : betting_round oA fuel g st c
      = (collect_bets (bettingRoundPre g st c), decide (1 < countInHand g.players)) := by
    unfold betting_round
    rw [if_pos ⟨hopt, hcb⟩]
    show (collect_bets (bettingRoundPre g st c),
      decide (1 < countInHand (collect_bets (bettingRoundPre g st c)).players)) = _
    rw [hcnt]
  have hmainB : betting_round oB fuel g st c
      = (collect_bets (bettingRoundPre g st c), decide (1 < countInHand g.players)) := by
    unfold betting_round
    rw [if_pos ⟨hopt, hcb⟩]
    show (collect_bets (bettingRoundPre g st c),
      decide (1 < countInHand (collect_bets (bettingRoundPre g st c)).players)) = _
    rw [hcnt]
  refine ⟨hmain, by rw [hmain, hmainB], ?_, ?_, ?_⟩
  · rw [hmain]
    show (collect_bets (bettingRoundPre g st c)).pot = _
    rw [collect_bets_def]
  · rw [hmain]
    show (collect_bets (bettingRoundPre g st c)).players = _
    rw [collect_bets_def]
  · rw [hmain]
    show decide (1 < countInHand g.players) = true ↔ 1 < countInHand g.players
    exact decide_eq_true_iff

/-- Witness for C7: entering the flop with one all-in seat, one active seat
and one folded seat; no oracle is consulted (check-oracle and fold-oracle
agree), the round reports `true` (two seats remain in hand) and the pot is
unchanged at 40 since post-flop bets were reset to zero. -/
theorem C7_witness :
    playersWithOption c7G.players < 2
    ∧ (betting_round oracleCheck 5 c7G "Flop" 3).2 = true
    ∧ betting_round oracleCheck 5 c7G "Flop" 3 = betting_round oracleFold 5 c7G "Flop" 3
    ∧ (betting_round oracleCheck 5 c7G "Flop" 3).1.pot = 40 := by
  have h := C7_closure_skip oracleCheck oracleFold 5 c7G "Flop" 3 (by decide)
    (fun hh => absurd hh (by decide))
  refine ⟨by decide, ?_, h.2.1, ?_⟩
  · exact h.2.2.2.2.mpr (by decide)
  · rw [h.1]
    decide

theorem showdownFold_inv (g : GameState) : ∀ (l : List Nat) (acc : List Nat × Int),
    l.Nodup → acc.1.Nodup → (∀ j ∈ acc.1, j ∉ l) →
    (l.foldl (showdownStep g) acc).1.Nodup
    ∧ ∀ j ∈ (l.foldl (showdownStep g) acc).1, j ∈ acc.1 ∨ j ∈ l := by
  intro l
  induction l with
  | nil => intro acc _ hacc _; exact ⟨hacc, fun j hj => Or.inl hj⟩
  | cons x t ih =>
    intro acc hl hacc hdisj
    obtain ⟨hxt, htd⟩ := List.nodup_cons.mp hl
    have hxacc : x ∉ acc.1 := fun hx => hdisj x hx (List.mem_cons_self x t)
    have hstep : (showdownStep g acc x).1.Nodup
        ∧ ∀ j ∈ (showdownStep g acc x).1, j ∈ acc.1 ∨ j = x := by
      by_cases hgt : (resultOf g x).1 > acc.2
      · simp only [showdownStep, if_pos hgt]
        exact ⟨List.nodup_singleton x, fun j hj => Or.inr (List.mem_singleton.mp hj)⟩
      · by_cases heq : (resultOf g x).1 = acc.2
        · rcases hacc1 : acc.1 with _ | ⟨w0, ws⟩
          · simp only [showdownStep, if_neg hgt, if_pos heq, hacc1]
            exact ⟨List.nodup_nil, fun j hj => absurd hj (List.not_mem_nil j)⟩
          · by_cases hcw : compare_hands (resultOf g x).2 (resultOf g w0).2 = 1
            · simp only [showdownStep, if_neg hgt, if_pos heq, hacc1, if_pos hcw]
              exact ⟨List.nodup_singleton x, fun j hj => Or.inr (List.mem_singleton.mp hj)⟩
            · by_cases hcw0 : compare_hands (resultOf g x).2 (resultOf g w0).2 = 0
              · simp only [showdownStep, if_neg hgt, if_pos heq, hacc1, if_neg hcw,
                  if_pos hcw0]
                constructor
                · rw [List.nodup_append]
                  refine ⟨hacc1 ▸ hacc, List.nodup_singleton x, ?_⟩
                  intro a ha hb
                  exact hxacc (by rw [hacc1]; exact (List.mem_singleton.mp hb) ▸ ha)
                · intro j hj
                  rcases List.mem_append.mp hj with h1 | h2
                  · exact Or.inl h1
                  · exact Or.inr (List.mem_singleton.mp h2)
              · simp only [showdownStep, if_neg hgt, if_pos heq, hacc1, if_neg hcw,
                  if_neg hcw0]
                exact ⟨hacc1 ▸ hacc, fun j hj => Or.inl hj⟩
        · simp only [showdownStep, if_neg hgt, if_neg heq]
          exact ⟨hacc, fun j hj => Or.inl hj⟩
    have hdisj' : ∀ j ∈ (showdownStep g acc x).1, j ∉ t := by
      intro j hj
      rcases hstep.2 j hj with hja | hjx
      · exact fun hjt => hdisj j hja (List.mem_cons_of_mem x hjt)
      · exact hjx ▸ hxt
    have hres := ih (showdownStep g acc x) htd hstep.1 hdisj'
    rw [List.foldl_cons]
    refine ⟨hres.1, ?_⟩
    intro j hj
    rcases hres.2 j hj with hja | hjt
    · rcases hstep.2 j hja with h1 | h2
      · exact Or.inl h1
      · exact Or.inr (h2 ▸ List.mem_cons_self x t)
    · exact Or.inr (List.mem_cons_of_mem x hjt)

theorem showdownSelect_spec (g : GameState) :
    (showdownSelect g).Nodup ∧ ∀ j ∈ showdownSelect g, j < g.players.length := by
  have hc : (contendersIdx g).Nodup := List.Nodup.filter _ (List.nodup_range _)
  have h := showdownFold_inv g (contendersIdx g) ([], -1) hc List.nodup_nil
    (fun j hj => absurd hj (List.not_mem_nil j))
  refine ⟨h.1, fun j hj => ?_⟩
  rcases h.2 j hj with h1 | h2
  · exact absurd h1 (List.not_mem_nil j)
  · exact List.mem_range.mp (List.mem_filter.mp h2).1

theorem payFold_getD (w : Int) : ∀ (winners : List Nat) (ps : List Player),
    winners.Nodup → (∀ j ∈ winners, j < ps.length) → ∀ i,
    ((winners.foldl
        (fun ps j => ps.set j
          { ps.getD j dummyPlayer with chips := (ps.getD j dummyPlayer).chips + w })
        ps).getD i dummyPlayer)
      = (if i ∈ winners
         then { ps.getD i dummyPlayer with chips := (ps.getD i dummyPlayer).chips + w }
         else ps.getD i dummyPlayer) := by
  intro winners
  induction winners with
  | nil => intro ps _ _ i; rw [List.foldl_nil, if_neg (List.not_mem_nil i)]
  | cons j t ih =>
    intro ps hnd hb i
    obtain ⟨hjt, htnd⟩ := List.nodup_cons.mp hnd
    have hj : j < ps.length := hb j (List.mem_cons_self j t)
    rw [List.foldl_cons]
    rw [ih _ htnd (fun k hk => by rw [List.length_set]; exact hb k (List.mem_cons_of_mem j hk))]
    by_cases hit : i ∈ t
    · rw [if_pos hit, if_pos (List.mem_cons_of_mem j hit)]
      have hij : j ≠ i := fun h => hjt (h ▸ hit)
      rw [listGetD_set_ne _ _ _ _ hij]
    · rw [if_neg hit]
      by_cases hijj : i = j
      · subst hijj
        rw [if_pos (List.mem_cons_self i t), listGetD_set_self _ _ _ hj]
      · rw [if_neg (fun hmem => by
          rcases List.mem_cons.mp hmem with h1 | h2
          · exact hijj h1
          · exact hit h2)]
        rw [listGetD_set_ne _ _ _ _ (fun h => hijj h.symm)]

/-- C5: at a showdown with at least two contenders, the engine pays each of
the `n` co-winners exactly `pot // n` (floor division), leaves every other
seat untouched, resets the pot to 0, and the remainder `pot mod n` is
distributed to no one (`n * (pot // n) + pot mod n = pot` accounts for it). -/
theorem C5_showdown_split (g : GameState)
    (hc : 2 ≤ (contendersIdx g).length) (hw : showdownSelect g ≠ []) :
    showdown g = showdownPay g (showdownSelect g)
    ∧ (∀ j ∈ showdownSelect g,
        ((showdown g).players.getD j dummyPlayer).chips
          = (g.players.getD j dummyPlayer).chips
            + Int.fdiv g.pot ((showdownSelect g).length : Int))
    ∧ (∀ j, j < g.players.length → j ∉ showdownSelect g →
        (showdown g).players.getD j dummyPlayer = g.players.getD j dummyPlayer)
    ∧ (showdown g).pot = 0
    ∧ Int.fdiv g.pot ((showdownSelect g).length : Int) * ((showdownSelect g).length : Int)
        + Int.fmod g.pot ((showdownSelect g).length : Int) = g.pot := by
  have hsd : showdown g = showdownPay g (showdownSelect g) := by
    unfold showdown
    rw [if_neg (by omega)]
  have hspec := showdownSelect_spec g
  have hpay : ∀ i, ((showdownPay g (showdownSelect g)).players.getD i dummyPlayer)
      = (if i ∈ showdownSelect g
         then { g.players.getD i dummyPlayer with
                chips := (g.players.getD i dummyPlayer).chips
                  + Int.fdiv g.pot ((showdownSelect g).length : Int) }
         else g.players.getD i dummyPlayer) :=
    fun i => payFold_getD (Int.fdiv g.pot ((showdownSelect g).length : Int))
      (showdownSelect g) g.players hspec.1 hspec.2 i
  refine ⟨hsd, ?_, ?_, ?_, ?_⟩
  · intro j hj
    rw [hsd, hpay j, if_pos hj]
  · intro j _ hj
    rw [hsd, hpay j, if_neg hj]
  · rw [hsd]; rfl
  · rw [mul_comm]
    exact Int.fdiv_add_fmod g.pot ((showdownSelect g).length : Int)

set_option maxRecDepth 8000 in
set_option maxHeartbeats 1000000 in
/-- Witness for C5: the board of `c5G` is a royal flush, both seats tie, the
odd pot of 101 pays 50 to each (chips 500 → 550 and 400 → 450) and one chip
evaporates. -/
theorem C5_witness :
    (contendersIdx c5G).length = 2
    ∧ showdownSelect c5G = [0, 1]
    ∧ (showdown c5G).pot = 0
    ∧ ((showdown c5G).players.getD 0 dummyPlayer).chips = 550
    ∧ ((showdown c5G).players.getD 1 dummyPlayer).chips = 450 := by
  have h := C5_showdown_split c5G (by decide) (by decide)
  have h0 := h.2.1 0 (by decide)
  have h1 := h.2.1 1 (by decide)
  refine ⟨by decide, by decide, h.2.2.2.1, ?_, ?_⟩
  · rw [h0]; decide
  · rw [h1]; decide

theorem getState_entry (g : GameState) (j : Nat) :
    (get_state g false).players.getD j dummyPlayerDict
      = (g.players.getD j dummyPlayer).to_dict
          (false || !(g.players.getD j dummyPlayer).in_hand) :=
  @List.getD_map Player PlayerDict g.players dummyPlayer j
    (fun p => p.to_dict (false || !p.in_hand))

/-- C9 (amended): in the single broadcast payload of `get_state` with
`show_all_cards = false`, a bot that is still in hand has its hole cards
replaced by exactly two empty placeholders, while the cards of every non-bot
player and of every player no longer in hand appear in full — the payload
does not vary by viewer, folded players are exposed, and the placeholder
count is always two regardless of the number of cards held. -/
theorem C9_redaction (g : GameState) (j : Nat) (hj : j < g.players.length) :
    ((g.players.getD j dummyPlayer).is_bot = true
        ∧ (g.players.getD j dummyPlayer).in_hand = true →
      ((get_state g false).players.getD j dummyPlayerDict).hand = [none, none])
    ∧ ((g.players.getD j dummyPlayer).is_bot = false
        ∨ (g.players.getD j dummyPlayer).in_hand = false →
      ((get_state g false).players.getD j dummyPlayerDict).hand
        = (g.players.getD j dummyPlayer).hand.map (fun c => some c.to_dict)) := by
  have hbot : ∀ p : Player, p.is_bot = true → p.in_hand = true →
      (p.to_dict (false || !p.in_hand)).hand = [none, none] := by
    intro p hb hih
    unfold Player.to_dict
    rw [hb, hih]
    rfl
  have hshow : ∀ p : Player, p.is_bot = false ∨ p.in_hand = false →
      (p.to_dict (false || !p.in_hand)).hand = p.hand.map (fun c => some c.to_dict) := by
    intro p h
    unfold Player.to_dict
    rcases h with hb | hih
    · simp [hb]
    · simp [hih]
  constructor
  · rintro ⟨hb, hih⟩
    rw [getState_entry]
    exact hbot _ hb hih
  · intro hor
    rw [getState_entry]
    exact hshow _ hor

/-- Counterexample to C9 as stated: in `c9G` the folded bot at seat 1 has its
real hole cards A♠ K♥ serialised into the payload (not placeholders), and the
in-hand bot at seat 2, holding a single card, is shown exactly two
placeholders rather than a count-matching number. -/
theorem C9_counterexample :
    ((get_state c9G false).players.getD 1 dummyPlayerDict).hand
        = [some ⟨0, 14, "black"⟩, some ⟨1, 13, "red"⟩]
    ∧ ((get_state c9G false).players.getD 1 dummyPlayerDict).hand ≠ [none, none]
    ∧ (c9G.players.getD 1 dummyPlayer).is_bot = true
    ∧ (c9G.players.getD 1 dummyPlayer).in_hand = false
    ∧ ((get_state c9G false).players.getD 2 dummyPlayerDict).hand = [none, none]
    ∧ (c9G.players.getD 2 dummyPlayer).hand.length = 1 := by
  decide

/-- Witness for C9 (amended): the in-hand bot of `c9G` is redacted to two
placeholders and the human's cards appear in full. -/
theorem C9_witness :
    ((get_state c9G false).players.getD 2 dummyPlayerDict).hand = [none, none]
    ∧ ((get_state c9G false).players.getD 0 dummyPlayerDict).hand
        = (c9G.players.getD 0 dummyPlayer).hand.map (fun c => some c.to_dict) := by
  have h2 := C9_redaction c9G 2 (by decide)
  have h0 := C9_redaction c9G 0 (by decide)
  exact ⟨h2.1 (by decide), h0.2 (by decide)⟩
